import Mathlib

/-!
Shallow embedding of the browser client in `src/main.js` of
mediapipe-touchdesigner: the per-frame multi-model orchestration loop
(`predictWebcam`), the WebSocket message handler (`setupWebSocket`'s
message listener), the guarded transport send (`safeSocketSend`), the
device-id validator (`checkDeviceIds`) and the configuration dispatch
(`handleQueryParams` and the config branch of the message handler).

Modelling conventions:
- JavaScript numbers used as timestamps (`video.currentTime`,
  `performance.now()`, `Date.now()` differences) are abstracted as `Nat`
  values with decidable equality; the code only ever compares
  `currentTime` for (in)equality and subtracts clock readings.
- Detection results are abstract values (`Nat`) produced by an oracle
  `String → Nat` mapping a model's `resultsName` to the result the
  external library would return for the current frame; the loop itself
  never inspects results beyond truthiness (`results` set or not),
  which `Option` captures.
- Side effects (calls into a model's detection entry point, calls to
  `safeSocketSend`, draw calls, `requestAnimationFrame` scheduling) are
  recorded as an ordered event trace.
- The module-level registries `allModelState = [face, hand, gesture,
  pose, object]` and `landmarkerModelState = [face, hand, gesture,
  pose]` are modelled as a list `lms` of landmarker model states plus a
  separate `obj` state, with `allModelState = lms ++ [obj]`.
-/

namespace MediapipeTD

/-- A `{ deviceId, label }` record as produced by `getWebcamDevices`. -/
structure DeviceInfo where
  deviceId : String
  label : String
deriving Repr, DecidableEq

/-- Per-capability model state (`state.js` records as used by `main.js`):
`detect` enables the model, `landmarker` is the adapter handle (set once
the external model loads), `results` the last detection result,
`resultsName` the JSON key used for outbound messages. -/
structure ModelState where
  detect : Bool
  landmarker : Option Unit
  results : Option Nat
  resultsName : String
deriving Repr, DecidableEq

/-- `webcamState` fields used by `main.js`. -/
structure WebcamState where
  webcamId : Option String
  webcamDevices : List DeviceInfo
  webcamRunning : Bool
  lastVideoTime : Nat
deriving Repr, DecidableEq

/-- The video element fields read by `predictWebcam`. -/
structure Video where
  videoWidth : Nat
  videoHeight : Nat
  currentTime : Nat
deriving Repr, DecidableEq

/-- Outbound JSON messages built by `predictWebcam`: per-model result
messages `\x7b [resultsName]: results, resolution: \x7b width, height \x7d \x7d`
and the per-frame timing message `\x7b detectTime: ms \x7d`. -/
inductive OutMsg where
  | result (resultsName : String) (res : Nat) (width : Nat) (height : Nat)
  | timing (ms : Nat)
deriving Repr, DecidableEq

/-- Observable side effects of one `predictWebcam` invocation, in order:
a call into a model's detection entry point (`entry` names the method,
`recognizeForVideo` or `detectForVideo`), a call to `safeSocketSend`
with a serialized message, a draw call (`uniform` is true for the
uniform `draw(results, drawingUtils)` contract, false for the object
detector's own `objectState.draw()`), and a `requestAnimationFrame`
rescheduling of the loop. -/
inductive Event where
  | detect (resultsName : String) (entry : String)
  | send (msg : OutMsg)
  | draw (resultsName : String) (uniform : Bool)
  | schedule
deriving Repr, DecidableEq

/-- The detection entry point used for a model: the gesture model
(`resultsName === 'gestureResults'`) is dispatched through
`recognizeForVideo`, every other model through `detectForVideo`
(main.js lines 118-122). -/
def entryPoint (m : ModelState) : String :=
  if m.resultsName == "gestureResults" then "recognizeForVideo" else "detectForVideo"

/-- The dispatch guard of the detection loop: `landmarker.detect &&
landmarker.landmarker` (main.js line 115). -/
def modelEnabled (m : ModelState) : Bool :=
  m.detect && m.landmarker.isSome

/-- One iteration of the detection loop body for one model (main.js
lines 115-127): if enabled, call the model's detection entry point,
store the result, and immediately hand the serialized result message to
`safeSocketSend`. Returns the updated model state and the emitted
events. -/
def detectOne (oracle : String → Nat) (video : Video) (m : ModelState) :
    ModelState × List Event :=
  if modelEnabled m then
    let r := oracle m.resultsName
    ({ m with results := some r },
     [Event.detect m.resultsName (entryPoint m),
      Event.send (OutMsg.result m.resultsName r video.videoWidth video.videoHeight)])
  else
    (m, [])

/-- The sequential `for (let landmarker of allModelState)` detection
loop (main.js lines 114-128), over a list of model states. -/
def detectLoop (oracle : String → Nat) (video : Video) :
    List ModelState → List ModelState × List Event
  | [] => ([], [])
  | m :: ms =>
    let p := detectOne oracle video m
    let q := detectLoop oracle video ms
    (p.1 :: q.1, p.2 ++ q.2)

/-- The overlay drawing block (main.js lines 131-141): when the overlay
is shown, each landmarker model with `detect` set and a previous result
is drawn through the uniform `draw(results, drawingUtils)` contract in
registry order, then the object detector is drawn through its own
`objectState.draw()`. -/
def drawPhase (overlayShow : Bool) (lms : List ModelState) (obj : ModelState) :
    List Event :=
  if overlayShow then
    (lms.filterMap fun m =>
      if m.detect && m.results.isSome then some (Event.draw m.resultsName true)
      else none)
    ++ (if obj.detect && obj.results.isSome then [Event.draw obj.resultsName false]
        else [])
  else []

/-- Result of one `predictWebcam` invocation: the updated model states
(landmarkers and object detector), the updated webcam state, and the
ordered event trace. -/
structure FrameOutput where
  landmarkerModels : List ModelState
  objectModel : ModelState
  webcam : WebcamState
  events : List Event
deriving Repr, DecidableEq

/-- `predictWebcam` (main.js lines 93-151). `elapsedMs` is the measured
`Math.round(endDetect - startDetect)` wall-clock duration of the
invocation. Canvas/div sizing (lines 101-109) touches only DOM
presentation state and is not tracked. The early return on a zero-sized
video (lines 96-99) emits nothing. In a processed frame
(`lastVideoTime !== currentTime`), `lastVideoTime` is assigned before
the detection loop runs; then detection runs sequentially over
`allModelState = lms ++ [obj]`; then the overlay block draws; then the
loop reschedules itself iff `webcamRunning`; finally the timing message
is handed to `safeSocketSend` unconditionally. -/
def predictWebcam (oracle : String → Nat) (overlayShow : Bool)
    (lms : List ModelState) (obj : ModelState) (webcam : WebcamState)
    (video : Video) (elapsedMs : Nat) : FrameOutput :=
  if video.videoWidth = 0 ∨ video.videoHeight = 0 then
    ⟨lms, obj, webcam, []⟩
  else if webcam.lastVideoTime ≠ video.currentTime then
    let wc := { webcam with lastVideoTime := video.currentTime }
    let pLms := detectLoop oracle video lms
    let pObj := detectOne oracle video obj
    let drawEvs := drawPhase overlayShow pLms.1 pObj.1
    let schedEvs := if wc.webcamRunning then [Event.schedule] else []
    ⟨pLms.1, pObj.1, wc,
     (pLms.2 ++ pObj.2) ++ drawEvs ++ schedEvs
       ++ [Event.send (OutMsg.timing elapsedMs)]⟩
  else
    let drawEvs := drawPhase overlayShow lms obj
    let schedEvs := if webcam.webcamRunning then [Event.schedule] else []
    ⟨lms, obj, webcam,
     drawEvs ++ schedEvs ++ [Event.send (OutMsg.timing elapsedMs)]⟩

/-- A WebSocket connection as observed by `safeSocketSend`: its current
`readyState` and its `OPEN` constant. -/
structure WS where
  readyState : Nat
  OPEN : Nat
deriving Repr, DecidableEq

/-- `safeSocketSend` (main.js lines 87-91): hand `data` to the
underlying `ws.send` primitive only when `ws.readyState === ws.OPEN`;
otherwise drop it. The returned list is the sequence of payloads passed
to the underlying send primitive. -/
def safeSocketSend {α : Type} (ws : WS) (data : α) : List α :=
  if ws.readyState = ws.OPEN then [data] else []

/-- `checkDeviceIds` (main.js lines 196-203): linear scan with early
return true on the first element whose `deviceId` equals `key`. -/
def checkDeviceIds (key : String) : List DeviceInfo → Bool
  | [] => false
  | d :: rest => if d.deviceId == key then true else checkDeviceIds key rest

/-- `overlayState` as used by `main.js`. -/
structure OverlayState where
  «show» : Bool
deriving Repr, DecidableEq

/-- The mutable state objects reachable from the configuration setters
and the message handler. -/
structure TrackedState where
  webcam : WebcamState
  overlay : OverlayState
  models : List ModelState
deriving Repr, DecidableEq

/-- The `configMap` imported from `modelParams.js`: a partial map from
option key to a setter mutating tracked state. `main.js` only tests
key membership (`key in configMap`) and applies `configMap[key](value)`;
the map itself is a parameter of the embedding. -/
def ConfigMap : Type :=
  String → Option (String → TrackedState → TrackedState)

/-- Observable actions of the message handler / query-param handler: a
call to `enableCam` (recording the `webcamState.webcamId` in effect at
the time of the call) and an invocation of a configuration setter. -/
inductive HandlerAction where
  | enableCam (webcamId : Option String)
  | invokeSetter (key : String) (value : String)
deriving Repr, DecidableEq

/-- The shared key/value application loop: for each entry, if the key is
in the config map (`key in configMap`) apply its setter, otherwise skip
the entry. Used both by `handleQueryParams` (main.js lines 51-58) and
by the non-`selectWebcam` branch of the message handler (lines
179-184). -/
def applyConfigEntries (cfg : ConfigMap) :
    List (String × String) → TrackedState → TrackedState × List HandlerAction
  | [], st => (st, [])
  | (k, v) :: rest, st =>
    match cfg k with
    | some setter =>
      let p := applyConfigEntries cfg rest (setter v st)
      (p.1, HandlerAction.invokeSetter k v :: p.2)
    | none => applyConfigEntries cfg rest st

/-- `handleQueryParams` (main.js lines 51-58): iterate the URL query
parameters, applying each key present in `configMap` and skipping the
rest. -/
def handleQueryParams (cfg : ConfigMap) (params : List (String × String))
    (st : TrackedState) : TrackedState × List HandlerAction :=
  applyConfigEntries cfg params st

/-- Parsed inbound WebSocket messages (main.js lines 166-185): the
literal keep-alive strings, the `selectWebcam` command, and any other
JSON object treated as a flat set of configuration key/value pairs. -/
inductive InMsg where
  | ping
  | pong
  | selectWebcam (deviceId : String)
  | config (pairs : List (String × String))
deriving Repr, DecidableEq

/-- The WebSocket message listener (main.js lines 166-185): `ping` and
`pong` are ignored; `selectWebcam` validates the device id against
`webcamState.webcamDevices` via `checkDeviceIds`, sets
`webcamState.webcamId` only when validation succeeds, and then calls
`enableCam`; any other object is applied through the config map. -/
def handleMessage (cfg : ConfigMap) (st : TrackedState) :
    InMsg → TrackedState × List HandlerAction
  | InMsg.ping => (st, [])
  | InMsg.pong => (st, [])
  | InMsg.selectWebcam deviceId =>
    let st2 :=
      if checkDeviceIds deviceId st.webcam.webcamDevices then
        { st with webcam := { st.webcam with webcamId := some deviceId } }
      else st
    (st2, [HandlerAction.enableCam st2.webcam.webcamId])
  | InMsg.config pairs => applyConfigEntries cfg pairs st

/-- The model state a detection-loop iteration leaves behind. -/
def updateModel (oracle : String → Nat) (m : ModelState) : ModelState :=
  if modelEnabled m then { m with results := some (oracle m.resultsName) } else m

/-- The two events one enabled model contributes to the detection phase:
its detection call immediately followed by the send of its result
message. -/
def detectEventsOf (oracle : String → Nat) (video : Video) (m : ModelState) :
    List Event :=
  [Event.detect m.resultsName (entryPoint m),
   Event.send (OutMsg.result m.resultsName (oracle m.resultsName)
     video.videoWidth video.videoHeight)]

/-- The registry entries that actually run in a processed frame:
`allModelState = lms ++ [obj]` filtered by the dispatch guard. -/
def enabledModels (lms : List ModelState) (obj : ModelState) : List ModelState :=
  (lms ++ [obj]).filter fun m => modelEnabled m

/-- The result message an enabled model's loop iteration sends. -/
def resultMsg (oracle : String → Nat) (video : Video) (m : ModelState) : OutMsg :=
  OutMsg.result m.resultsName (oracle m.resultsName) video.videoWidth video.videoHeight

/-- Projection of an event trace to the messages handed to
`safeSocketSend`. -/
def sendsOf (evs : List Event) : List OutMsg :=
  evs.filterMap fun e =>
    match e with
    | Event.send m => some m
    | _ => none

/-- Is this event a detection call? -/
def isDetectEvent (e : Event) : Bool :=
  match e with
  | Event.detect _ _ => true
  | _ => false

/-- Is this event a draw call? -/
def isDrawEvent (e : Event) : Bool :=
  match e with
  | Event.draw _ _ => true
  | _ => false

/-- Is this event a rescheduling? -/
def isScheduleEvent (e : Event) : Bool :=
  match e with
  | Event.schedule => true
  | _ => false

/-- Is this the timing message? -/
def isTimingMsg (m : OutMsg) : Bool :=
  match m with
  | OutMsg.timing _ => true
  | _ => false

theorem detectOne_spec (oracle : String → Nat) (video : Video) (m : ModelState) :
    detectOne oracle video m =
      (updateModel oracle m,
       if modelEnabled m then detectEventsOf oracle video m else []) := by
  by_cases h : modelEnabled m = true <;>
    simp [detectOne, updateModel, detectEventsOf, h]

theorem detectLoop_spec (oracle : String → Nat) (video : Video)
    (ms : List ModelState) :
    detectLoop oracle video ms =
      (ms.map (updateModel oracle),
       (ms.filter fun m => modelEnabled m).flatMap (detectEventsOf oracle video)) := by
  induction ms with
  | nil => simp [detectLoop]
  | cons m rest ih =>
    by_cases h : modelEnabled m = true <;>
      simp [detectLoop, detectOne_spec, ih, h, List.filter_cons]

theorem sendsOf_append (a b : List Event) :
    sendsOf (a ++ b) = sendsOf a ++ sendsOf b := by
  simp [sendsOf]

theorem mem_drawPhase_isDraw (overlayShow : Bool) (lms : List ModelState)
    (obj : ModelState) (e : Event) (he : e ∈ drawPhase overlayShow lms obj) :
    isDrawEvent e = true := by
  rcases overlayShow with _ | _
  · simp [drawPhase] at he
  · simp only [drawPhase, if_true, List.mem_append] at he
    rcases he with he | he
    · rw [List.mem_filterMap] at he
      obtain ⟨m, _, hEq⟩ := he
      by_cases h : (m.detect && m.results.isSome) = true
      · rw [if_pos h] at hEq
        injection hEq with hEq
        rw [← hEq]
        rfl
      · rw [if_neg h] at hEq
        exact absurd hEq (by simp)
    · by_cases h : (obj.detect && obj.results.isSome) = true
      · rw [if_pos h] at he
        simp only [List.mem_singleton] at he
        rw [he]
        rfl
      · rw [if_neg h] at he
        simp at he

theorem sendsOf_drawPhase (overlayShow : Bool) (lms : List ModelState)
    (obj : ModelState) : sendsOf (drawPhase overlayShow lms obj) = [] := by
  rw [sendsOf, List.filterMap_eq_nil_iff]
  intro e he
  have h := mem_drawPhase_isDraw overlayShow lms obj e he
  cases e <;> simp_all [isDrawEvent]

theorem filter_isDetect_drawPhase (overlayShow : Bool) (lms : List ModelState)
    (obj : ModelState) :
    (drawPhase overlayShow lms obj).filter isDetectEvent = [] := by
  rw [List.filter_eq_nil_iff]
  intro e he
  have h := mem_drawPhase_isDraw overlayShow lms obj e he
  cases e <;> simp_all [isDrawEvent, isDetectEvent]

theorem sendsOf_detectSeg (oracle : String → Nat) (video : Video)
    (ms : List ModelState) :
    sendsOf (ms.flatMap (detectEventsOf oracle video)) =
      ms.map (resultMsg oracle video) := by
  induction ms with
  | nil => simp [sendsOf]
  | cons m rest ih =>
    simp only [List.flatMap_cons, sendsOf_append, ih, List.map_cons]
    simp [sendsOf, detectEventsOf, resultMsg]

theorem mem_detectSeg_shape (oracle : String → Nat) (video : Video)
    (ms : List ModelState) (e : Event)
    (h : e ∈ ms.flatMap (detectEventsOf oracle video)) :
    (∃ name entry, e = Event.detect name entry) ∨
    (∃ name res w hgt, e = Event.send (OutMsg.result name res w hgt)) := by
  rw [List.mem_flatMap] at h
  obtain ⟨m, _, hm⟩ := h
  simp only [detectEventsOf, List.mem_cons, List.mem_singleton,
    List.not_mem_nil, or_false] at hm
  rcases hm with hm | hm
  · exact Or.inl ⟨_, _, hm⟩
  · exact Or.inr ⟨_, _, _, _, hm⟩

theorem detectSeg_entryPoint (oracle : String → Nat) (video : Video)
    (ms : List ModelState) (name entry : String)
    (h : Event.detect name entry ∈ ms.flatMap (detectEventsOf oracle video)) :
    entry = if name == "gestureResults" then "recognizeForVideo"
            else "detectForVideo" := by
  rw [List.mem_flatMap] at h
  obtain ⟨m, _, hm⟩ := h
  simp only [detectEventsOf, List.mem_cons, List.mem_singleton,
    List.not_mem_nil, or_false] at hm
  rcases hm with hm | hm
  · injection hm with h1 h2
    rw [h2, h1, entryPoint]
  · simp at hm

theorem detectSeg_notDraw (oracle : String → Nat) (video : Video)
    (ms : List ModelState) :
    (ms.flatMap (detectEventsOf oracle video)).filter isDrawEvent = [] := by
  rw [List.filter_eq_nil_iff]
  intro e he
  rcases mem_detectSeg_shape oracle video ms e he with ⟨n, en, h⟩ | ⟨n, r, w, hg, h⟩ <;>
    simp [h, isDrawEvent]

theorem detectSeg_notSchedule (oracle : String → Nat) (video : Video)
    (ms : List ModelState) :
    (ms.flatMap (detectEventsOf oracle video)).filter
      (fun e => !isScheduleEvent e) = ms.flatMap (detectEventsOf oracle video) := by
  rw [List.filter_eq_self]
  intro e he
  rcases mem_detectSeg_shape oracle video ms e he with ⟨n, en, h⟩ | ⟨n, r, w, hg, h⟩ <;>
    simp [h, isScheduleEvent]

theorem schedule_not_mem_detectSeg (oracle : String → Nat) (video : Video)
    (ms : List ModelState) :
    Event.schedule ∉ ms.flatMap (detectEventsOf oracle video) := by
  intro h
  rcases mem_detectSeg_shape oracle video ms _ h with ⟨n, en, hEq⟩ | ⟨n, r, w, hg, hEq⟩ <;>
    simp at hEq

theorem drawPhase_notSchedule (overlayShow : Bool) (lms : List ModelState)
    (obj : ModelState) :
    (drawPhase overlayShow lms obj).filter (fun e => !isScheduleEvent e) =
      drawPhase overlayShow lms obj := by
  rw [List.filter_eq_self]
  intro e he
  have h := mem_drawPhase_isDraw overlayShow lms obj e he
  cases e <;> simp_all [isDrawEvent, isScheduleEvent]

theorem schedule_not_mem_drawPhase (overlayShow : Bool) (lms : List ModelState)
    (obj : ModelState) : Event.schedule ∉ drawPhase overlayShow lms obj := by
  intro h
  have := mem_drawPhase_isDraw overlayShow lms obj _ h
  simp [isDrawEvent] at this

theorem filter_isDraw_drawPhase (overlayShow : Bool) (lms : List ModelState)
    (obj : ModelState) :
    (drawPhase overlayShow lms obj).filter isDrawEvent =
      drawPhase overlayShow lms obj := by
  rw [List.filter_eq_self]
  intro e he
  exact mem_drawPhase_isDraw overlayShow lms obj e he

theorem detectSeg_append_eq (oracle : String → Nat) (video : Video)
    (lms : List ModelState) (obj : ModelState) :
    (lms.filter fun m => modelEnabled m).flatMap (detectEventsOf oracle video)
      ++ (if modelEnabled obj then detectEventsOf oracle video obj else []) =
    (enabledModels lms obj).flatMap (detectEventsOf oracle video) := by
  rw [enabledModels, List.filter_append, List.flatMap_append]
  congr 1
  by_cases h : modelEnabled obj = true <;> simp [h]

theorem predictWebcam_processed (oracle : String → Nat) (overlayShow : Bool)
    (lms : List ModelState) (obj : ModelState) (webcam : WebcamState)
    (video : Video) (elapsedMs : Nat)
    (hdim : ¬(video.videoWidth = 0 ∨ video.videoHeight = 0))
    (hT : webcam.lastVideoTime ≠ video.currentTime) :
    predictWebcam oracle overlayShow lms obj webcam video elapsedMs =
      ⟨lms.map (updateModel oracle), updateModel oracle obj,
       { webcam with lastVideoTime := video.currentTime },
       (enabledModels lms obj).flatMap (detectEventsOf oracle video)
         ++ drawPhase overlayShow (lms.map (updateModel oracle))
              (updateModel oracle obj)
         ++ (if webcam.webcamRunning then [Event.schedule] else [])
         ++ [Event.send (OutMsg.timing elapsedMs)]⟩ := by
  rw [predictWebcam, if_neg hdim, if_pos hT]
  simp only [detectLoop_spec, detectOne_spec]
  rw [← detectSeg_append_eq]

theorem predictWebcam_skip (oracle : String → Nat) (overlayShow : Bool)
    (lms : List ModelState) (obj : ModelState) (webcam : WebcamState)
    (video : Video) (elapsedMs : Nat)
    (hdim : ¬(video.videoWidth = 0 ∨ video.videoHeight = 0))
    (hT : webcam.lastVideoTime = video.currentTime) :
    predictWebcam oracle overlayShow lms obj webcam video elapsedMs =
      ⟨lms, obj, webcam,
       drawPhase overlayShow lms obj
         ++ (if webcam.webcamRunning then [Event.schedule] else [])
         ++ [Event.send (OutMsg.timing elapsedMs)]⟩ := by
  rw [predictWebcam, if_neg hdim, if_neg (by simp [hT])]

theorem skip_no_detect (oracle : String → Nat) (overlayShow : Bool)
    (lms : List ModelState) (obj : ModelState) (webcam : WebcamState)
    (video : Video) (elapsedMs : Nat)
    (hT : webcam.lastVideoTime = video.currentTime) :
    (predictWebcam oracle overlayShow lms obj webcam video elapsedMs).events.filter
      isDetectEvent = [] := by
  by_cases hdim : video.videoWidth = 0 ∨ video.videoHeight = 0
  · rw [predictWebcam, if_pos hdim]
    rfl
  · rw [predictWebcam_skip oracle overlayShow lms obj webcam video elapsedMs hdim hT]
    simp only [List.filter_append, filter_isDetect_drawPhase, List.nil_append]
    rw [List.append_eq_nil]
    constructor
    · by_cases h : webcam.webcamRunning = true <;> simp [h, isDetectEvent]
    · simp [isDetectEvent]

theorem checkDeviceIds_iff (key : String) (ds : List DeviceInfo) :
    checkDeviceIds key ds = true ↔ ∃ d ∈ ds, d.deviceId = key := by
  induction ds with
  | nil => simp [checkDeviceIds]
  | cons d rest ih =>
    by_cases h : d.deviceId = key <;> simp [checkDeviceIds, h, ih]

/-- C6: `checkDeviceIds key deviceIds` returns true iff some element of
`deviceIds` has a `deviceId` field equal to `key`; in particular it
returns true for "abc" against a list containing deviceId "abc", false
for "zzz" against a list without it, and false for every key against
the empty list. -/
theorem checkDeviceIds_correct :
    (∀ (key : String) (ds : List DeviceInfo),
      checkDeviceIds key ds = true ↔ ∃ d ∈ ds, d.deviceId = key) ∧
    checkDeviceIds "abc" [⟨"abc", "a"⟩, ⟨"xyz", "x"⟩] = true ∧
    checkDeviceIds "zzz" [⟨"abc", "a"⟩, ⟨"xyz", "x"⟩] = false ∧
    (∀ key : String, checkDeviceIds key [] = false) :=
  ⟨checkDeviceIds_iff, by decide, by decide, fun _ => rfl⟩

theorem checkDeviceIds_correct_witness :
    checkDeviceIds "abc" [⟨"abc", "a"⟩, ⟨"xyz", "x"⟩] = true :=
  checkDeviceIds_correct.2.1

/-- C4: for every connection whose `readyState` is not the `OPEN`
state, `safeSocketSend` passes nothing to the underlying send
primitive: the payload is silently dropped (the empty list of
transmitted payloads — nothing buffered, nothing retried, no error). -/
theorem safeSocketSend_drops_when_not_open {α : Type} (ws : WS) (data : α)
    (h : ws.readyState ≠ ws.OPEN) : safeSocketSend ws data = [] := by
  simp [safeSocketSend, h]

theorem safeSocketSend_drops_when_not_open_witness :
    safeSocketSend ⟨0, 1⟩ (37 : Nat) = [] :=
  safeSocketSend_drops_when_not_open ⟨0, 1⟩ 37 (by decide)

/-- C3: for every inbound `selectWebcam` message, the device id is
validated with `checkDeviceIds` against `webcamState.webcamDevices`
before capture state changes: if validation succeeds the resulting
state is exactly the old state with `webcamId := some deviceId`; if it
fails the whole state is unchanged; and in both cases the handler
issues exactly one `enableCam` capture request, carrying the
post-validation `webcamId`. -/
theorem selectWebcam_validates_before_enable (cfg : ConfigMap)
    (st : TrackedState) (deviceId : String) :
    (checkDeviceIds deviceId st.webcam.webcamDevices = true →
      (handleMessage cfg st (InMsg.selectWebcam deviceId)).1 =
        { st with webcam := { st.webcam with webcamId := some deviceId } }) ∧
    (checkDeviceIds deviceId st.webcam.webcamDevices = false →
      (handleMessage cfg st (InMsg.selectWebcam deviceId)).1 = st) ∧
    (handleMessage cfg st (InMsg.selectWebcam deviceId)).2 =
      [HandlerAction.enableCam
        (handleMessage cfg st (InMsg.selectWebcam deviceId)).1.webcam.webcamId] := by
  refine ⟨fun h => ?_, fun h => ?_, ?_⟩
  · simp [handleMessage, h]
  · simp [handleMessage, h]
  · by_cases h : checkDeviceIds deviceId st.webcam.webcamDevices = true <;>
      simp [handleMessage, h]

theorem selectWebcam_validates_before_enable_witness :
    (handleMessage (fun _ => none)
        ⟨⟨none, [⟨"abc", "cam"⟩], false, 0⟩, ⟨false⟩, []⟩
        (InMsg.selectWebcam "abc")).1.webcam.webcamId = some "abc" ∧
    (handleMessage (fun _ => none)
        ⟨⟨none, [⟨"abc", "cam"⟩], false, 0⟩, ⟨false⟩, []⟩
        (InMsg.selectWebcam "zzz")).1 =
      ⟨⟨none, [⟨"abc", "cam"⟩], false, 0⟩, ⟨false⟩, []⟩ := by
  constructor
  · rw [(selectWebcam_validates_before_enable (fun _ => none)
      ⟨⟨none, [⟨"abc", "cam"⟩], false, 0⟩, ⟨false⟩, []⟩ "abc").1 (by decide)]
  · exact (selectWebcam_validates_before_enable (fun _ => none)
      ⟨⟨none, [⟨"abc", "cam"⟩], false, 0⟩, ⟨false⟩, []⟩ "zzz").2.1 (by decide)

/-- C5: applying a configuration key absent from the config map —
arriving either as a URL query parameter or as a field of an inbound
transport configuration message — leaves the tracked state unchanged
and invokes no setter: the entry is skipped outright (in the embedding
both handlers are total functions, so no exception is possible). -/
theorem unknown_config_key_noop (cfg : ConfigMap) (k v : String)
    (rest : List (String × String)) (st : TrackedState) (h : cfg k = none) :
    handleQueryParams cfg ((k, v) :: rest) st = handleQueryParams cfg rest st ∧
    handleMessage cfg st (InMsg.config ((k, v) :: rest)) =
      handleMessage cfg st (InMsg.config rest) ∧
    handleQueryParams cfg [(k, v)] st = (st, []) ∧
    handleMessage cfg st (InMsg.config [(k, v)]) = (st, []) := by
  refine ⟨?_, ?_, ?_, ?_⟩ <;>
    simp [handleQueryParams, handleMessage, applyConfigEntries, h]

theorem unknown_config_key_noop_witness :
    handleQueryParams (fun _ => none) [("nope", "1")]
        ⟨⟨none, [], false, 0⟩, ⟨false⟩, []⟩ =
      (⟨⟨none, [], false, 0⟩, ⟨false⟩, []⟩, []) :=
  (unknown_config_key_noop (fun _ => none) "nope" "1" []
    ⟨⟨none, [], false, 0⟩, ⟨false⟩, []⟩ rfl).2.2.1

/-- C9: when `video.videoWidth` or `video.videoHeight` is zero,
`predictWebcam` returns immediately: no state changes and an empty
event trace — no detection call, no draw call, no result or timing
message handed to `safeSocketSend`, and no rescheduling, so the
animation-frame chain ends. -/
theorem predictWebcam_zero_dims (oracle : String → Nat) (overlayShow : Bool)
    (lms : List ModelState) (obj : ModelState) (webcam : WebcamState)
    (video : Video) (elapsedMs : Nat)
    (h : video.videoWidth = 0 ∨ video.videoHeight = 0) :
    predictWebcam oracle overlayShow lms obj webcam video elapsedMs =
      ⟨lms, obj, webcam, []⟩ := by
  rw [predictWebcam, if_pos h]

theorem predictWebcam_zero_dims_witness :
    predictWebcam (fun _ => 0) true [] ⟨true, some (), none, "objectResults"⟩
        ⟨none, [], true, 0⟩ ⟨0, 720, 5⟩ 3 =
      ⟨[], ⟨true, some (), none, "objectResults"⟩, ⟨none, [], true, 0⟩, []⟩ :=
  predictWebcam_zero_dims (fun _ => 0) true [] ⟨true, some (), none, "objectResults"⟩
    ⟨none, [], true, 0⟩ ⟨0, 720, 5⟩ 3 (Or.inl rfl)

theorem sendsOf_schedList (b : Bool) :
    sendsOf (if b then [Event.schedule] else []) = [] := by
  cases b <;> rfl

theorem sendsOf_timingList (t : Nat) :
    sendsOf [Event.send (OutMsg.timing t)] = [OutMsg.timing t] := rfl

theorem filter_isTiming_resultMsgs (oracle : String → Nat) (video : Video)
    (ms : List ModelState) :
    (ms.map (resultMsg oracle video)).filter isTimingMsg = [] := by
  induction ms with
  | nil => rfl
  | cons m rest ih => simp [resultMsg, isTimingMsg, ih]

theorem filter_isDraw_schedList (b : Bool) :
    (if b then [Event.schedule] else []).filter isDrawEvent = [] := by
  cases b <;> rfl

theorem filter_isDetect_schedList (b : Bool) :
    (if b then [Event.schedule] else []).filter isDetectEvent = [] := by
  cases b <;> rfl

theorem filter_notSchedule_schedList (b : Bool) :
    (if b then [Event.schedule] else []).filter (fun e => !isScheduleEvent e) = [] := by
  cases b <;> rfl

theorem filter_notSchedule_timing (t : Nat) :
    [Event.send (OutMsg.timing t)].filter (fun e => !isScheduleEvent e) =
      [Event.send (OutMsg.timing t)] := rfl

/-- C1: in every rendered frame (nonzero video size), the loop hands
`safeSocketSend` exactly one timing message; in a processed frame
(`lastVideoTime` differs from `currentTime`) the full send sequence is
exactly one result message per enabled registry model, in registry
order and of shape `resultMsg` (the model's `resultsName` key, its
result, and the video resolution), followed by the timing message, and
each result send sits immediately after that model's detection event;
in a skipped frame the send sequence is just the timing message. -/
theorem predictWebcam_message_policy (oracle : String → Nat) (overlayShow : Bool)
    (lms : List ModelState) (obj : ModelState) (webcam : WebcamState)
    (video : Video) (elapsedMs : Nat)
    (hW : video.videoWidth ≠ 0) (hH : video.videoHeight ≠ 0) :
    ((sendsOf (predictWebcam oracle overlayShow lms obj webcam video elapsedMs).events).filter
        isTimingMsg = [OutMsg.timing elapsedMs]) ∧
    (webcam.lastVideoTime ≠ video.currentTime →
      sendsOf (predictWebcam oracle overlayShow lms obj webcam video elapsedMs).events =
        (enabledModels lms obj).map (resultMsg oracle video) ++ [OutMsg.timing elapsedMs] ∧
      ∃ rest,
        (predictWebcam oracle overlayShow lms obj webcam video elapsedMs).events =
          (enabledModels lms obj).flatMap (detectEventsOf oracle video) ++ rest ∧
        (sendsOf rest).filter (fun m => !isTimingMsg m) = []) ∧
    (webcam.lastVideoTime = video.currentTime →
      sendsOf (predictWebcam oracle overlayShow lms obj webcam video elapsedMs).events =
        [OutMsg.timing elapsedMs]) := by
  have hdim : ¬(video.videoWidth = 0 ∨ video.videoHeight = 0) := by
    rintro (h | h)
    · exact hW h
    · exact hH h
  have hskip : webcam.lastVideoTime = video.currentTime →
      sendsOf (predictWebcam oracle overlayShow lms obj webcam video elapsedMs).events =
        [OutMsg.timing elapsedMs] := by
    intro hT
    rw [predictWebcam_skip oracle overlayShow lms obj webcam video elapsedMs hdim hT]
    simp [sendsOf_append, sendsOf_drawPhase, sendsOf_schedList, sendsOf_timingList]
  have hproc : webcam.lastVideoTime ≠ video.currentTime →
      sendsOf (predictWebcam oracle overlayShow lms obj webcam video elapsedMs).events =
        (enabledModels lms obj).map (resultMsg oracle video) ++ [OutMsg.timing elapsedMs] := by
    intro hT
    rw [predictWebcam_processed oracle overlayShow lms obj webcam video elapsedMs hdim hT]
    simp [sendsOf_append, sendsOf_detectSeg, sendsOf_drawPhase, sendsOf_schedList,
      sendsOf_timingList]
  refine ⟨?_, fun hT => ⟨hproc hT, ?_⟩, hskip⟩
  · by_cases hT : webcam.lastVideoTime = video.currentTime
    · rw [hskip hT]
      rfl
    · rw [hproc hT, List.filter_append, filter_isTiming_resultMsgs]
      rfl
  · refine ⟨drawPhase overlayShow (lms.map (updateModel oracle)) (updateModel oracle obj)
      ++ ((if webcam.webcamRunning then [Event.schedule] else [])
        ++ [Event.send (OutMsg.timing elapsedMs)]), ?_, ?_⟩
    · rw [predictWebcam_processed oracle overlayShow lms obj webcam video elapsedMs hdim hT]
      simp [List.append_assoc]
    · rw [sendsOf_append, sendsOf_drawPhase, sendsOf_append, sendsOf_schedList,
        sendsOf_timingList]
      rfl

theorem predictWebcam_message_policy_witness :
    sendsOf (predictWebcam (fun _ => 7) false [⟨true, some (), none, "gestureResults"⟩]
        ⟨true, some (), none, "objectResults"⟩ ⟨none, [], true, 0⟩
        ⟨640, 480, 1⟩ 4).events =
      [OutMsg.result "gestureResults" 7 640 480,
       OutMsg.result "objectResults" 7 640 480, OutMsg.timing 4] := by
  have h := predictWebcam_message_policy (fun _ => 7) false
    [⟨true, some (), none, "gestureResults"⟩] ⟨true, some (), none, "objectResults"⟩
    ⟨none, [], true, 0⟩ ⟨640, 480, 1⟩ 4 (by decide) (by decide)
  rw [(h.2.1 (by decide)).1]
  rfl

/-- C2: in a rendered frame whose `video.currentTime` equals
`webcamState.lastVideoTime`, no detection entry point is called (no
detect event in the trace), all state is left unchanged, and the trace
is exactly the draw calls, the conditional rescheduling and the timing
send — drawing and rescheduling still happen. -/
theorem predictWebcam_dedup (oracle : String → Nat) (overlayShow : Bool)
    (lms : List ModelState) (obj : ModelState) (webcam : WebcamState)
    (video : Video) (elapsedMs : Nat)
    (hW : video.videoWidth ≠ 0) (hH : video.videoHeight ≠ 0)
    (hT : webcam.lastVideoTime = video.currentTime) :
    ((predictWebcam oracle overlayShow lms obj webcam video elapsedMs).events.filter
        isDetectEvent = []) ∧
    ((predictWebcam oracle overlayShow lms obj webcam video elapsedMs).landmarkerModels
      = lms) ∧
    ((predictWebcam oracle overlayShow lms obj webcam video elapsedMs).objectModel
      = obj) ∧
    ((predictWebcam oracle overlayShow lms obj webcam video elapsedMs).webcam
      = webcam) ∧
    ((predictWebcam oracle overlayShow lms obj webcam video elapsedMs).events =
      drawPhase overlayShow lms obj
        ++ (if webcam.webcamRunning then [Event.schedule] else [])
        ++ [Event.send (OutMsg.timing elapsedMs)]) := by
  have hdim : ¬(video.videoWidth = 0 ∨ video.videoHeight = 0) := by
    rintro (h | h)
    · exact hW h
    · exact hH h
  refine ⟨skip_no_detect oracle overlayShow lms obj webcam video elapsedMs hT,
    ?_, ?_, ?_, ?_⟩ <;>
    rw [predictWebcam_skip oracle overlayShow lms obj webcam video elapsedMs hdim hT]

theorem predictWebcam_dedup_witness :
    (predictWebcam (fun _ => 7) true [] ⟨true, some (), some 3, "objectResults"⟩
        ⟨none, [], true, 5⟩ ⟨640, 480, 5⟩ 2).events.filter isDetectEvent = [] :=
  (predictWebcam_dedup (fun _ => 7) true [] ⟨true, some (), some 3, "objectResults"⟩
    ⟨none, [], true, 5⟩ ⟨640, 480, 5⟩ 2 (by decide) (by decide) rfl).1

/-- C7: in every processed frame, detection for all enabled models
completes before any draw call (the trace splits into a prefix with no
draw event containing all detect events, and a suffix with no detect
event); the draw calls follow the fixed registry order — the landmarker
models in list order through the uniform draw contract, then object
detection through its own adapter-specific method (non-uniform); and a
detection event's entry point is `recognizeForVideo` exactly for the
`gestureResults` model and `detectForVideo` for all others. -/
theorem predictWebcam_ordering (oracle : String → Nat) (overlayShow : Bool)
    (lms : List ModelState) (obj : ModelState) (webcam : WebcamState)
    (video : Video) (elapsedMs : Nat)
    (hW : video.videoWidth ≠ 0) (hH : video.videoHeight ≠ 0)
    (hT : webcam.lastVideoTime ≠ video.currentTime) :
    (∃ pre post,
      (predictWebcam oracle overlayShow lms obj webcam video elapsedMs).events =
        pre ++ post ∧
      pre.filter isDrawEvent = [] ∧
      pre.filter isDetectEvent =
        (predictWebcam oracle overlayShow lms obj webcam video elapsedMs).events.filter
          isDetectEvent ∧
      post.filter isDetectEvent = []) ∧
    ((predictWebcam oracle overlayShow lms obj webcam video elapsedMs).events.filter
        isDrawEvent =
      (if overlayShow then
        ((lms.map (updateModel oracle)).filterMap fun m =>
          if m.detect && m.results.isSome then some (Event.draw m.resultsName true)
          else none)
        ++ (if (updateModel oracle obj).detect
              && (updateModel oracle obj).results.isSome
            then [Event.draw (updateModel oracle obj).resultsName false] else [])
       else [])) ∧
    (∀ name entry,
      Event.detect name entry ∈
        (predictWebcam oracle overlayShow lms obj webcam video elapsedMs).events →
      entry = if name == "gestureResults" then "recognizeForVideo"
              else "detectForVideo") := by
  have hdim : ¬(video.videoWidth = 0 ∨ video.videoHeight = 0) := by
    rintro (h | h)
    · exact hW h
    · exact hH h
  have hEv : (predictWebcam oracle overlayShow lms obj webcam video elapsedMs).events =
      (enabledModels lms obj).flatMap (detectEventsOf oracle video)
        ++ drawPhase overlayShow (lms.map (updateModel oracle)) (updateModel oracle obj)
        ++ (if webcam.webcamRunning then [Event.schedule] else [])
        ++ [Event.send (OutMsg.timing elapsedMs)] := by
    rw [predictWebcam_processed oracle overlayShow lms obj webcam video elapsedMs hdim hT]
  refine ⟨?_, ?_, ?_⟩
  · refine ⟨(enabledModels lms obj).flatMap (detectEventsOf oracle video),
      drawPhase overlayShow (lms.map (updateModel oracle)) (updateModel oracle obj)
        ++ ((if webcam.webcamRunning then [Event.schedule] else [])
          ++ [Event.send (OutMsg.timing elapsedMs)]), ?_,
      detectSeg_notDraw oracle video (enabledModels lms obj), ?_, ?_⟩
    · rw [hEv]
      simp [List.append_assoc]
    · rw [hEv]
      simp [List.filter_append, filter_isDetect_drawPhase, filter_isDetect_schedList,
        isDetectEvent]
    · simp [List.filter_append, filter_isDetect_drawPhase, filter_isDetect_schedList,
        isDetectEvent]
  · rw [hEv]
    simp only [List.filter_append, detectSeg_notDraw, filter_isDraw_drawPhase,
      filter_isDraw_schedList, List.nil_append, List.append_nil]
    have h2 : [Event.send (OutMsg.timing elapsedMs)].filter isDrawEvent = [] := rfl
    rw [h2, List.append_nil, drawPhase]
  · intro name entry h
    rw [hEv] at h
    rcases List.mem_append.mp h with h | h
    · rcases List.mem_append.mp h with h | h
      · rcases List.mem_append.mp h with h | h
        · exact detectSeg_entryPoint oracle video (enabledModels lms obj) name entry h
        · have := mem_drawPhase_isDraw overlayShow (lms.map (updateModel oracle))
            (updateModel oracle obj) _ h
          simp [isDrawEvent] at this
      · by_cases hb : webcam.webcamRunning = true
        · simp [hb] at h
        · simp [hb] at h
    · simp at h

theorem predictWebcam_ordering_witness :
    (predictWebcam (fun _ => 7) true [⟨true, some (), none, "gestureResults"⟩]
        ⟨true, some (), none, "objectResults"⟩ ⟨none, [], true, 0⟩
        ⟨640, 480, 1⟩ 2).events.filter isDrawEvent =
      [Event.draw "gestureResults" true, Event.draw "objectResults" false] := by
  have h := (predictWebcam_ordering (fun _ => 7) true
    [⟨true, some (), none, "gestureResults"⟩] ⟨true, some (), none, "objectResults"⟩
    ⟨none, [], true, 0⟩ ⟨640, 480, 1⟩ 2 (by decide) (by decide) (by decide)).2.1
  rw [h]
  rfl

/-- C8: at the end of every full loop iteration (nonzero video size),
a `requestAnimationFrame` rescheduling event is emitted iff
`webcamState.webcamRunning` is true; the loop itself never changes
`webcamRunning`; and the flag affects nothing but the rescheduling —
the rest of the frame's event trace is identical whatever the flag, so
setting it false cancels only the next tick, never mid-frame work. -/
theorem predictWebcam_reschedule (oracle : String → Nat) (overlayShow : Bool)
    (lms : List ModelState) (obj : ModelState) (webcam : WebcamState)
    (video : Video) (elapsedMs : Nat)
    (hW : video.videoWidth ≠ 0) (hH : video.videoHeight ≠ 0) :
    (Event.schedule ∈
        (predictWebcam oracle overlayShow lms obj webcam video elapsedMs).events ↔
      webcam.webcamRunning = true) ∧
    ((predictWebcam oracle overlayShow lms obj webcam video elapsedMs).webcam.webcamRunning
      = webcam.webcamRunning) ∧
    (∀ b1 b2 : Bool,
      ((predictWebcam oracle overlayShow lms obj { webcam with webcamRunning := b1 }
          video elapsedMs).events.filter fun e => !isScheduleEvent e) =
      ((predictWebcam oracle overlayShow lms obj { webcam with webcamRunning := b2 }
          video elapsedMs).events.filter fun e => !isScheduleEvent e)) := by
  have hdim : ¬(video.videoWidth = 0 ∨ video.videoHeight = 0) := by
    rintro (h | h)
    · exact hW h
    · exact hH h
  have filterEvents : ∀ b : Bool,
      ((predictWebcam oracle overlayShow lms obj { webcam with webcamRunning := b }
          video elapsedMs).events.filter fun e => !isScheduleEvent e) =
      (if webcam.lastVideoTime = video.currentTime then
        drawPhase overlayShow lms obj ++ [Event.send (OutMsg.timing elapsedMs)]
       else
        (enabledModels lms obj).flatMap (detectEventsOf oracle video)
          ++ drawPhase overlayShow (lms.map (updateModel oracle))
               (updateModel oracle obj)
          ++ [Event.send (OutMsg.timing elapsedMs)]) := by
    intro b
    by_cases hT : webcam.lastVideoTime = video.currentTime
    · rw [predictWebcam_skip oracle overlayShow lms obj
        { webcam with webcamRunning := b } video elapsedMs hdim hT, if_pos hT]
      simp [List.filter_append, drawPhase_notSchedule, filter_notSchedule_schedList,
        filter_notSchedule_timing]
    · rw [predictWebcam_processed oracle overlayShow lms obj
        { webcam with webcamRunning := b } video elapsedMs hdim hT, if_neg hT]
      simp [List.filter_append, detectSeg_notSchedule, drawPhase_notSchedule,
        filter_notSchedule_schedList, filter_notSchedule_timing, List.append_assoc]
  refine ⟨?_, ?_, fun b1 b2 => by rw [filterEvents b1, filterEvents b2]⟩
  · by_cases hT : webcam.lastVideoTime = video.currentTime
    · rw [predictWebcam_skip oracle overlayShow lms obj webcam video elapsedMs hdim hT]
      have h1 := schedule_not_mem_drawPhase overlayShow lms obj
      by_cases hb : webcam.webcamRunning = true <;>
        simp [List.mem_append, hb, h1]
    · rw [predictWebcam_processed oracle overlayShow lms obj webcam video elapsedMs
        hdim hT]
      have h1 := schedule_not_mem_detectSeg oracle video (enabledModels lms obj)
      have h2 := schedule_not_mem_drawPhase overlayShow (lms.map (updateModel oracle))
        (updateModel oracle obj)
      by_cases hb : webcam.webcamRunning = true <;>
        simp [List.mem_append, hb, h1, h2]
  · by_cases hT : webcam.lastVideoTime = video.currentTime
    · rw [predictWebcam_skip oracle overlayShow lms obj webcam video elapsedMs hdim hT]
    · rw [predictWebcam_processed oracle overlayShow lms obj webcam video elapsedMs
        hdim hT]

theorem predictWebcam_reschedule_witness :
    Event.schedule ∈ (predictWebcam (fun _ => 7) false []
      ⟨true, some (), none, "objectResults"⟩ ⟨none, [], true, 0⟩
      ⟨640, 480, 1⟩ 2).events :=
  (predictWebcam_reschedule (fun _ => 7) false [] ⟨true, some (), none, "objectResults"⟩
    ⟨none, [], true, 0⟩ ⟨640, 480, 1⟩ 2 (by decide) (by decide)).1.mpr rfl

/-- C10: in every processed frame, the webcam state as of the first
suspension point already carries `lastVideoTime = video.currentTime`
(the assignment precedes the first awaited detection call, and the
detection loop never touches the webcam state, so the output webcam
state is exactly the pre-detection one); consequently any re-entrant
invocation of `predictWebcam` that observes this in-flight state with
the same unchanged `video.currentTime` performs no detection call at
all. -/
theorem lastVideoTime_set_before_detection (oracle : String → Nat)
    (overlayShow : Bool) (lms : List ModelState) (obj : ModelState)
    (webcam : WebcamState) (video : Video) (elapsedMs : Nat)
    (hW : video.videoWidth ≠ 0) (hH : video.videoHeight ≠ 0)
    (hT : webcam.lastVideoTime ≠ video.currentTime) :
    ((predictWebcam oracle overlayShow lms obj webcam video elapsedMs).webcam =
      { webcam with lastVideoTime := video.currentTime }) ∧
    ((predictWebcam oracle overlayShow lms obj webcam video elapsedMs).webcam.lastVideoTime
      = video.currentTime) ∧
    (∀ (oracle2 : String → Nat) (overlay2 : Bool) (lms2 : List ModelState)
        (obj2 : ModelState) (t2 : Nat),
      (predictWebcam oracle2 overlay2 lms2 obj2
          (predictWebcam oracle overlayShow lms obj webcam video elapsedMs).webcam
          video t2).events.filter isDetectEvent = []) := by
  have hdim : ¬(video.videoWidth = 0 ∨ video.videoHeight = 0) := by
    rintro (h | h)
    · exact hW h
    · exact hH h
  have hwc : (predictWebcam oracle overlayShow lms obj webcam video elapsedMs).webcam =
      { webcam with lastVideoTime := video.currentTime } := by
    rw [predictWebcam_processed oracle overlayShow lms obj webcam video elapsedMs hdim hT]
  refine ⟨hwc, ?_, ?_⟩
  · rw [hwc]
  · intro oracle2 overlay2 lms2 obj2 t2
    exact skip_no_detect oracle2 overlay2 lms2 obj2 _ video t2 (by rw [hwc])

theorem lastVideoTime_set_before_detection_witness :
    (predictWebcam (fun _ => 7) false [] ⟨true, some (), none, "objectResults"⟩
        ⟨none, [], true, 0⟩ ⟨640, 480, 1⟩ 2).webcam.lastVideoTime = 1 :=
  (lastVideoTime_set_before_detection (fun _ => 7) false []
    ⟨true, some (), none, "objectResults"⟩ ⟨none, [], true, 0⟩ ⟨640, 480, 1⟩ 2
    (by decide) (by decide) (by decide)).2.1
